import Mathlib

/-!
Shallow embedding of the Squads governance program (proposal lifecycle,
vote tallying / early decision, execution dispatch) and verification of
the specification claims against it.

Machine integers of the source (`u8`, `u32`, `u64`) are modelled as `Nat`;
wherever the source truncates with an `as u8` cast we write `% 256`
explicitly, and wherever an unchecked `u64` subtraction could panic on
underflow the embedding goes through an `Option`-returning checked
subtraction (a panic aborts the transaction, so it is modelled as an
error).  The `f32` percentage computations of the source are modelled
exactly over `ℚ`; every concrete input used in a theorem below keeps the
arithmetic within the range where `f32` is exact, so the rational model
agrees with the float behaviour there.  Account-plumbing checks (PDA
derivations, program-id and token-program ownership, rent) are external
collaborators and are not part of the embedded logic; the checks that are
embedded appear in the source order.  Pubkeys are abstracted as `Nat`.
-/

namespace Squads

/-- Errors surfaced by the program (`solana_program::program_error`),
plus `Panic` standing for an aborting arithmetic underflow. -/
inductive ProgErr where
  | MissingRequiredSignature
  | InvalidAccountData
  | IncorrectProgramId
  | InvalidArgument
  | InvalidInstructionData
  | AccountAlreadyInitialized
  | Panic
  deriving Repr, DecidableEq

deriving instance DecidableEq for Except

/-- `AllocationType::TeamCoordination as u8` (state/squad.rs). -/
def teamCoordination : ℕ := 1

/-- `AllocationType::Multisig as u8` (state/squad.rs). -/
def multisigAlloc : ℕ := 2

/-- The `Squad` account (state/squad.rs), restricted to the fields the
embedded logic reads or writes.  `members` models the
`BTreeMap<Pubkey, Member>` roster as an association list
(member key, equity token account). -/
structure Squad where
  is_initialized : Bool
  openDraft : Bool
  allocation_type : ℕ
  vote_support : ℕ
  vote_quorum : ℕ
  mint_address : ℕ
  proposal_nonce : ℕ
  member_lock_index : ℕ
  members : List (ℕ × ℕ)
  deriving Repr, DecidableEq

/-- `Squad::member_exists` (state/squad.rs): `members.contains_key(key)`. -/
def memberExists (s : Squad) (key : ℕ) : Bool :=
  s.members.any (fun m => m.1 = key)

/-- `Squad::add_member` (state/squad.rs): `BTreeMap::insert`, which
replaces the value when the key is present and adds an entry otherwise. -/
def addMember (s : Squad) (key v : ℕ) : Squad :=
  { s with members :=
      if s.members.any (fun m => m.1 = key) then
        s.members.map (fun m => if m.1 = key then (key, v) else m)
      else
        s.members ++ [(key, v)] }

/-- `Squad::remove_member` (state/squad.rs): `BTreeMap::remove`. -/
def removeMember (s : Squad) (key : ℕ) : Squad :=
  { s with members := s.members.filter (fun m => ¬ m.1 = key) }

/-- The `Proposal` account (state/proposal.rs), restricted to the fields
the embedded logic reads or writes.  `votes` is the fixed 5-slot `Vec<u64>`
tally. -/
structure Proposal where
  is_initialized : Bool
  proposal_type : ℕ
  execution_amount : ℕ
  execution_amount_out : ℕ
  execution_source : ℕ
  execution_destination : ℕ
  squad_address : ℕ
  votes_num : ℕ
  has_voted_num : ℕ
  has_voted : List ℕ
  votes : List ℕ
  start_timestamp : ℤ
  close_timestamp : ℤ
  supply_at_execute : ℕ
  members_at_execute : ℕ
  threshold_at_execute : ℕ
  executed : Bool
  execute_ready : Bool
  execution_date : ℤ
  executed_by : ℕ
  proposal_index : ℕ
  deriving Repr, DecidableEq

/-- The vote-receipt ledger: a vote receipt account exists exactly for
the keys `(proposal address, voter)` present in the list; the receipt PDA
is derived from exactly this pair (`get_vote_address_with_seed`,
lib.rs), so `vote_account.data_is_empty()` is the absence of the key. -/
abbrev ReceiptLedger := List (ℕ × ℕ)

/-- `get_proposal` (lib.rs): after ownership checks, an initialized
proposal whose `squad_address` differs from the supplied squad account
key is rejected with `InvalidAccountData`. -/
def getProposalChecked (squadKey : ℕ) (p : Proposal) : Except ProgErr Proposal :=
  if p.is_initialized ∧ p.squad_address ≠ squadKey then
    Except.error ProgErr.InvalidAccountData
  else
    Except.ok p

/-- One step of the `fold` locating the leading slot in
process_cast_vote.rs (lines 211-218): keep the first index whose value
strictly exceeds the running maximum. -/
def step1 (acc p : ℕ × ℕ) : ℕ × ℕ :=
  if p.2 > acc.2 then p else acc

/-- `most_index` (process_cast_vote.rs lines 211-218): index of the
leading slot, ties broken by the first index in a left-to-right scan. -/
def mostIndex (v : List ℕ) : ℕ :=
  (v.enum.foldl step1 (0, 0)).1

/-- One step of the `fold` locating the runner-up slot in
process_cast_vote.rs (lines 219-235): the leading index `m` is skipped
(resetting the accumulator to `(ind + 1, 0)` when `m = 0`). -/
def step2 (m : ℕ) (acc p : ℕ × ℕ) : ℕ × ℕ :=
  if p.1 = m then (if m = 0 then (p.1 + 1, 0) else acc)
  else if p.2 > acc.2 then p else acc

/-- `second_most_index` (process_cast_vote.rs lines 219-235). -/
def secondMostIndex (v : List ℕ) : ℕ :=
  (v.enum.foldl (step2 (mostIndex v)) (0, 0)).1

/-- The early-decision ("tipping") test of process_cast_vote.rs line 237:
`votes[most_index] > votes[second_most_index] + possible_votes_left`,
with `possible_votes_left = supply - total_votes` (line 207). -/
def tipDecided (v : List ℕ) (S : ℕ) : Bool :=
  decide (v.getD (mostIndex v) 0 > v.getD (secondMostIndex v) 0 + (S - v.sum))

/-- The `f32` percentage `(num as f32 / den as f32) * 100.0` of the
source, modelled exactly over `ℚ`. -/
def pct (num den : ℕ) : ℚ :=
  ((num : ℚ) / (den : ℚ)) * 100

/-- `possible_votes_left` of process_cast_vote.rs line 207:
`supply - total_votes` on `u64`, which panics on underflow - modelled as
a checked subtraction. -/
def tcPossibleVotesLeft (supply total : ℕ) : Option ℕ :=
  if total ≤ supply then some (supply - total) else none

/-- `possible_votes_left` of process_cast_multisig_vote.rs line 166:
`members.len() - (pass_votes + fail_votes)` on `u64`, which panics on
underflow - modelled as a checked subtraction. -/
def msPossibleVotesLeft (memberCount pass fail : ℕ) : Option ℕ :=
  if pass + fail ≤ memberCount then some (memberCount - (pass + fail)) else none

/-- The checks of `process_cast_vote` (process_cast_vote.rs lines 59-131)
that follow the `get_proposal` accessor, in source order.  The mint-owner,
program-id, governance-PDA and vote-PDA checks are address plumbing and
are left to the external addressing service. -/
def castVoteCheck (squad : Squad) (p : Proposal) (mintKey proposalKey voter : ℕ)
    (now : ℤ) (receipts : ReceiptLedger) (vote : ℕ) : Option ProgErr :=
  if squad.allocation_type ≠ teamCoordination then some ProgErr.InvalidArgument
  else if ¬ p.execute_ready ∧ p.proposal_index ≤ squad.member_lock_index then
    some ProgErr.InvalidInstructionData
  else if mintKey ≠ squad.mint_address then some ProgErr.InvalidAccountData
  else if p.close_timestamp < now then some ProgErr.InvalidArgument
  else if p.start_timestamp > now then some ProgErr.InvalidArgument
  else if p.executed then some ProgErr.InvalidArgument
  else if ¬ memberExists squad voter then some ProgErr.InvalidArgument
  else if (proposalKey, voter) ∈ receipts then some ProgErr.AccountAlreadyInitialized
  else if p.votes_num ≤ vote then some ProgErr.InvalidArgument
  else none

/-- The tally-and-decide mutation of `process_cast_vote`
(process_cast_vote.rs lines 195-292): record the weighted vote, then run
the early-decision engine.  Inside the guarded branch
`possible = supply - votes.sum`, so the tipping test of line 237 is
exactly `tipDecided votes supply`.  Returns `none` when the `u64`
subtraction of line 207 would panic. -/
def castVoteApply (squad : Squad) (p : Proposal) (voter vote weight supply : ℕ) :
    Option Proposal :=
  let votes := p.votes.set vote (p.votes.getD vote 0 + weight)
  let has_voted := p.has_voted ++ [voter]
  match tcPossibleVotesLeft supply votes.sum with
  | none => none
  | some possible =>
    let p1 := { p with votes := votes, has_voted := has_voted,
                       has_voted_num := has_voted.length % 256 }
    let p2 :=
      if p.proposal_type = 0 then
        if tipDecided votes supply then
          let quorum_ready :=
            pct has_voted.length squad.members.length ≥ (squad.vote_quorum : ℚ)
          let support_ready :=
            pct (votes.getD (mostIndex votes) 0) supply ≥ (squad.vote_support : ℚ)
          if quorum_ready ∧ support_ready then { p1 with execute_ready := true } else p1
        else p1
      else
        let pass := votes.getD 0 0
        let fail := votes.getD 1 0
        let pRej := if fail > pass + possible then { p1 with executed := true } else p1
        let quorum_ready :=
          pct has_voted.length squad.members.length ≥ (squad.vote_quorum : ℚ)
        let support_ready := pct pass supply ≥ (squad.vote_support : ℚ)
        if quorum_ready ∧ support_ready then { pRej with execute_ready := true } else pRej
    some { p2 with supply_at_execute := supply,
                   members_at_execute := squad.members.length % 256 }

/-- `process_cast_vote` (process_cast_vote.rs): signer check, proposal
load through `get_proposal`, remaining checks, then receipt creation and
tally update committed together. -/
def castVote (isSigner : Bool) (squadKey mintKey proposalKey voter : ℕ)
    (squad : Squad) (p : Proposal) (weight supply : ℕ) (now : ℤ)
    (receipts : ReceiptLedger) (vote : ℕ) : Except ProgErr (Proposal × ReceiptLedger) :=
  if ¬ isSigner then Except.error ProgErr.MissingRequiredSignature
  else
    match getProposalChecked squadKey p with
    | Except.error e => Except.error e
    | Except.ok p0 =>
      match castVoteCheck squad p0 mintKey proposalKey voter now receipts vote with
      | some e => Except.error e
      | none =>
        match castVoteApply squad p0 voter vote weight supply with
        | none => Except.error ProgErr.Panic
        | some p2 => Except.ok (p2, receipts ++ [(proposalKey, voter)])

/-- The checks of `process_cast_multisig_vote`
(process_cast_multisig_vote.rs lines 49-96) that follow `get_proposal`,
in source order.  There is no membership-lock fence on this path. -/
def castMsVoteCheck (squad : Squad) (p : Proposal) (proposalKey voter : ℕ)
    (now : ℤ) (receipts : ReceiptLedger) (vote : ℕ) : Option ProgErr :=
  if p.close_timestamp < now then some ProgErr.InvalidArgument
  else if p.start_timestamp > now then some ProgErr.InvalidArgument
  else if p.executed then some ProgErr.InvalidArgument
  else if squad.allocation_type ≠ multisigAlloc then some ProgErr.InvalidArgument
  else if ¬ memberExists squad voter then some ProgErr.InvalidArgument
  else if (proposalKey, voter) ∈ receipts then some ProgErr.AccountAlreadyInitialized
  else if p.votes_num ≤ vote then some ProgErr.InvalidArgument
  else none

/-- The tally-and-decide mutation of `process_cast_multisig_vote`
(process_cast_multisig_vote.rs lines 157-183): weight is always 1, then
the absolute-quorum decision chain runs in source order.  Returns `none`
when the `u64` subtraction of line 166 would panic. -/
def castMsVoteApply (squad : Squad) (p : Proposal) (voter vote : ℕ) : Option Proposal :=
  let votes := p.votes.set vote (p.votes.getD vote 0 + 1)
  let has_voted := p.has_voted ++ [voter]
  let pass := votes.getD 0 0
  let fail := votes.getD 1 0
  match msPossibleVotesLeft squad.members.length pass fail with
  | none => none
  | some possible =>
    let p1 := { p with votes := votes, has_voted := has_voted,
                       has_voted_num := has_voted.length % 256 }
    let p2 := if squad.vote_quorum > possible + pass then
                { p1 with execute_ready := true, executed := true }
              else p1
    let p3 := if pass ≥ squad.vote_quorum then { p2 with execute_ready := true } else p2
    let p4 := if p3.execute_ready then
                { p3 with threshold_at_execute := squad.vote_quorum }
              else p3
    some p4

/-- `process_cast_multisig_vote` (process_cast_multisig_vote.rs). -/
def castMultisigVote (isSigner : Bool) (squadKey proposalKey voter : ℕ)
    (squad : Squad) (p : Proposal) (now : ℤ) (receipts : ReceiptLedger)
    (vote : ℕ) : Except ProgErr (Proposal × ReceiptLedger) :=
  if ¬ isSigner then Except.error ProgErr.MissingRequiredSignature
  else
    match getProposalChecked squadKey p with
    | Except.error e => Except.error e
    | Except.ok p0 =>
      match castMsVoteCheck squad p0 proposalKey voter now receipts vote with
      | some e => Except.error e
      | none =>
        match castMsVoteApply squad p0 voter vote with
        | none => Except.error ProgErr.Panic
        | some p4 => Except.ok (p4, receipts ++ [(proposalKey, voter)])

/-- External token/value movement requested by the execution dispatcher
(the CPI calls of the source), recorded as data. -/
inductive TokenEffect where
  | noEffect
  | solTransfer (source destination amount : ℕ)
  | splTransfer (source destination amount : ℕ)
  | mintTo (account amount : ℕ)
  | burnFrom (account amount : ℕ)
  | swapTokens (amountIn minimumOut : ℕ)
  deriving Repr, DecidableEq

/-- The quorum/support percentages consulted by the TeamCoordination
execution dispatcher (process_execute_proposal.rs lines 126-142): the
frozen snapshot denominators when `execute_ready`, otherwise live squad
and mint state.  The resulting pair is compared against the squad's LIVE
`vote_quorum` and `vote_support` in both cases (lines 144-150). -/
def tcExecutePercents (ready : Bool) (hasVotedLen membersAtExec supplyAtExec
    liveMembers liveSupply pass : ℕ) : ℚ × ℚ :=
  if ready then (pct hasVotedLen membersAtExec, pct pass supplyAtExec)
  else (pct hasVotedLen liveMembers, pct pass liveSupply)

/-- `threshold_reached` of the multisig execution dispatcher
(process_execute_multisig_proposal.rs lines 89-94): the frozen
`threshold_at_execute` when `execute_ready`, otherwise the live
`vote_quorum`. -/
def msThresholdReached (ready : Bool) (pass thr quorum : ℕ) : Bool :=
  if ready then decide (pass ≥ thr) else decide (pass ≥ quorum)

/-- The checks of `process_execute_proposal`
(process_execute_proposal.rs lines 60-150) that follow `get_proposal`,
in source order (token-program/ATA/PDA plumbing external). -/
def execTCCheck (squad : Squad) (p : Proposal) (executioner sourceKey destKey : ℕ)
    (supply : ℕ) : Option ProgErr :=
  if ¬ p.execute_ready ∧ p.proposal_index ≤ squad.member_lock_index then
    some ProgErr.InvalidInstructionData
  else if sourceKey ≠ p.execution_source then some ProgErr.InvalidAccountData
  else if destKey ≠ p.execution_destination then some ProgErr.InvalidAccountData
  else if squad.allocation_type ≠ teamCoordination then some ProgErr.InvalidAccountData
  else if ¬ memberExists squad executioner then some ProgErr.InvalidArgument
  else if p.proposal_type < 1 then some ProgErr.InvalidArgument
  else if p.executed then some ProgErr.InvalidArgument
  else if p.votes.getD 0 0 < p.votes.getD 1 0 then some ProgErr.InvalidArgument
  else
    let prc := tcExecutePercents p.execute_ready p.has_voted.length
      p.members_at_execute p.supply_at_execute squad.members.length supply
      (p.votes.getD 0 0)
    if prc.1 < (squad.vote_quorum : ℚ) then some ProgErr.InvalidArgument
    else if prc.2 < (squad.vote_support : ℚ) then some ProgErr.InvalidArgument
    else none

/-- The per-type effect `match` of `process_execute_proposal`
(process_execute_proposal.rs lines 152-636).  `memberEquityAmount` is the
token balance of the targeted member equity account (read in the
RemoveMember and MintMemberToken branches); the AddMember branch records
the new member under the derived equity PDA, abstracted here as the
member key itself.  The AddMember branch does NOT touch
`member_lock_index`; the RemoveMember branch sets it, and the
MintMemberToken branch sets it only when a mint or burn occurred. -/
def execTCDispatch (destKey : ℕ) (squad : Squad) (p : Proposal)
    (memberEquityAmount : ℕ) : Except ProgErr (Squad × Proposal × TokenEffect) :=
  if p.proposal_type = 1 then
    Except.ok ({ squad with vote_support := p.execution_amount % 256 }, p,
      TokenEffect.noEffect)
  else if p.proposal_type = 2 then
    Except.ok ({ squad with vote_quorum := p.execution_amount % 256 }, p,
      TokenEffect.noEffect)
  else if p.proposal_type = 3 then
    Except.ok (squad, p,
      TokenEffect.solTransfer p.execution_source p.execution_destination p.execution_amount)
  else if p.proposal_type = 4 then
    Except.ok (squad, p,
      TokenEffect.splTransfer p.execution_source p.execution_destination p.execution_amount)
  else if p.proposal_type = 5 then
    if memberExists squad destKey then Except.error ProgErr.InvalidArgument
    else
      Except.ok (addMember squad destKey destKey, p,
        TokenEffect.mintTo destKey p.execution_amount)
  else if p.proposal_type = 6 then
    if ¬ memberExists squad destKey then Except.error ProgErr.InvalidArgument
    else
      Except.ok ({ removeMember squad destKey with
                     member_lock_index := squad.proposal_nonce }, p,
        TokenEffect.burnFrom destKey memberEquityAmount)
  else if p.proposal_type = 7 then
    if ¬ memberExists squad destKey then Except.error ProgErr.InvalidArgument
    else
      let p1 := { p with execution_amount_out := memberEquityAmount }
      if memberEquityAmount < p.execution_amount then
        Except.ok ({ squad with member_lock_index := squad.proposal_nonce }, p1,
          TokenEffect.mintTo destKey (p.execution_amount - memberEquityAmount))
      else if memberEquityAmount > p.execution_amount then
        Except.ok ({ squad with member_lock_index := squad.proposal_nonce }, p1,
          TokenEffect.burnFrom destKey (memberEquityAmount - p.execution_amount))
      else Except.ok (squad, p1, TokenEffect.noEffect)
  else if p.proposal_type = 8 then
    Except.ok (squad, p, TokenEffect.swapTokens p.execution_amount p.execution_amount_out)
  else Except.error ProgErr.InvalidArgument

/-- `process_execute_proposal` (process_execute_proposal.rs): checks,
per-type effect, then the terminal marking of lines 638-645 committed
with the squad as one unit. -/
def executeProposal (isSigner : Bool) (squadKey executioner sourceKey destKey : ℕ)
    (squad : Squad) (p : Proposal) (supply memberEquityAmount : ℕ) (now : ℤ) :
    Except ProgErr (Squad × Proposal × TokenEffect) :=
  if ¬ isSigner then Except.error ProgErr.MissingRequiredSignature
  else
    match getProposalChecked squadKey p with
    | Except.error e => Except.error e
    | Except.ok p0 =>
      match execTCCheck squad p0 executioner sourceKey destKey supply with
      | some e => Except.error e
      | none =>
        match execTCDispatch destKey squad p0 memberEquityAmount with
        | Except.error e => Except.error e
        | Except.ok (squad2, p2, eff) =>
          Except.ok (squad2,
            { p2 with executed_by := executioner, executed := true,
                      execution_date := now }, eff)

/-- The checks of `process_execute_multisig_proposal`
(process_execute_multisig_proposal.rs lines 51-98) that follow
`get_proposal`, in source order.  There is no membership-lock fence on
this path. -/
def execMsCheck (squad : Squad) (p : Proposal) (executioner sourceKey destKey : ℕ) :
    Option ProgErr :=
  if sourceKey ≠ p.execution_source then some ProgErr.InvalidAccountData
  else if destKey ≠ p.execution_destination then some ProgErr.InvalidAccountData
  else if squad.allocation_type ≠ multisigAlloc then some ProgErr.InvalidAccountData
  else if ¬ memberExists squad executioner then some ProgErr.InvalidArgument
  else if p.proposal_type < 1 then some ProgErr.InvalidArgument
  else if p.executed then some ProgErr.InvalidArgument
  else if ¬ msThresholdReached p.execute_ready (p.votes.getD 0 0)
      p.threshold_at_execute squad.vote_quorum then some ProgErr.InvalidArgument
  else none

/-- The per-type effect `match` of `process_execute_multisig_proposal`
(process_execute_multisig_proposal.rs lines 100-312).  Support (1) and
MintMemberToken (7) are not handled there and fall to the error arm.
The RemoveMember branch decrements `vote_quorum` when it equals the
pre-removal member count (compared after an `as u8` cast). -/
def execMsDispatch (destKey : ℕ) (squad : Squad) (p : Proposal) :
    Except ProgErr (Squad × Proposal × TokenEffect) :=
  if p.proposal_type = 2 then
    Except.ok ({ squad with vote_quorum := p.execution_amount % 256 }, p,
      TokenEffect.noEffect)
  else if p.proposal_type = 3 then
    Except.ok (squad, p,
      TokenEffect.solTransfer p.execution_source p.execution_destination p.execution_amount)
  else if p.proposal_type = 4 then
    Except.ok (squad, p,
      TokenEffect.splTransfer p.execution_source p.execution_destination p.execution_amount)
  else if p.proposal_type = 5 then
    if memberExists squad destKey then Except.error ProgErr.InvalidArgument
    else Except.ok (addMember squad destKey destKey, p, TokenEffect.noEffect)
  else if p.proposal_type = 6 then
    if ¬ memberExists squad destKey then Except.error ProgErr.InvalidArgument
    else
      let sq1 := if squad.vote_quorum = squad.members.length % 256 then
                   { squad with vote_quorum := squad.vote_quorum - 1 }
                 else squad
      Except.ok (removeMember sq1 destKey, p, TokenEffect.noEffect)
  else if p.proposal_type = 8 then
    Except.ok (squad, p, TokenEffect.swapTokens p.execution_amount p.execution_amount_out)
  else Except.error ProgErr.InvalidArgument

/-- `process_execute_multisig_proposal`
(process_execute_multisig_proposal.rs). -/
def executeMultisigProposal (isSigner : Bool) (squadKey executioner sourceKey destKey : ℕ)
    (squad : Squad) (p : Proposal) (now : ℤ) :
    Except ProgErr (Squad × Proposal × TokenEffect) :=
  if ¬ isSigner then Except.error ProgErr.MissingRequiredSignature
  else
    match getProposalChecked squadKey p with
    | Except.error e => Except.error e
    | Except.ok p0 =>
      match execMsCheck squad p0 executioner sourceKey destKey with
      | some e => Except.error e
      | none =>
        match execMsDispatch destKey squad p0 with
        | Except.error e => Except.error e
        | Except.ok (squad2, p2, eff) =>
          Except.ok (squad2,
            { p2 with executed_by := executioner, executed := true,
                      execution_date := now }, eff)

/-- A freshly provisioned proposal account: `create_account` zeroes the
data, so unpacking yields `false`/`0` everywhere and the five zeroed
8-byte tally slots. -/
def freshProposal : Proposal where
  is_initialized := false
  proposal_type := 0
  execution_amount := 0
  execution_amount_out := 0
  execution_source := 0
  execution_destination := 0
  squad_address := 0
  votes_num := 0
  has_voted_num := 0
  has_voted := []
  votes := [0, 0, 0, 0, 0]
  start_timestamp := 0
  close_timestamp := 0
  supply_at_execute := 0
  members_at_execute := 0
  threshold_at_execute := 0
  executed := false
  execute_ready := false
  execution_date := 0
  executed_by := 0
  proposal_index := 0

/-- `Proposal::save_core` (state/proposal.rs), restricted to the
modelled fields. -/
def saveCore (p : Proposal) (proposal_type votes_num squadKey : ℕ)
    (start close : ℤ) (amount nonce : ℕ) : Proposal :=
  { p with is_initialized := true, proposal_type := proposal_type,
           votes_num := votes_num, squad_address := squadKey,
           start_timestamp := start, close_timestamp := close,
           execution_amount := amount, executed := false,
           execute_ready := false, execution_date := 0,
           proposal_index := nonce }

/-- `Proposal::save_text` (state/proposal.rs): like `save_core` with a
zero execution amount. -/
def saveText (p : Proposal) (proposal_type votes_num squadKey : ℕ)
    (start close : ℤ) (nonce : ℕ) : Proposal :=
  saveCore p proposal_type votes_num squadKey start close 0 nonce

/-- `Proposal::save_withdraw` (state/proposal.rs). -/
def saveWithdraw (p : Proposal) (proposal_type source target votes_num squadKey : ℕ)
    (start close : ℤ) (amount nonce : ℕ) : Proposal :=
  { saveCore p proposal_type votes_num squadKey start close amount nonce with
      execution_source := source, execution_destination := target }

/-- `Proposal::save_member` (state/proposal.rs): the squad account is
recorded as the execution source and the member as the destination. -/
def saveMember (p : Proposal) (proposal_type member votes_num squadKey : ℕ)
    (start close : ℤ) (amount nonce : ℕ) : Proposal :=
  { saveCore p proposal_type votes_num squadKey start close amount nonce with
      execution_source := squadKey, execution_destination := member }

/-- `Proposal::save_swap` (state/proposal.rs). -/
def saveSwap (p : Proposal) (proposal_type source target votes_num squadKey : ℕ)
    (start close : ℤ) (amount minimumOut nonce : ℕ) : Proposal :=
  { saveWithdraw p proposal_type source target votes_num squadKey start close amount nonce with
      execution_amount_out := minimumOut }

/-- The `amount_check` of the Quorum branch of `process_create_proposal`
(process_create_proposal.rs lines 206-217), verbatim: for a Multisig
squad the member count is compared with the amount AFTER both are cast
`as u8`; for a TeamCoordination squad the test is the disjunction
`amount > 0 || amount <= 100` as written in the source. -/
def quorumAmountCheck (allocation_type membersLen amount : ℕ) : Bool :=
  if allocation_type = 2 then decide (membersLen % 256 ≥ amount % 256)
  else if allocation_type = 1 then decide (amount > 0 ∨ amount ≤ 100)
  else false

/-- `process_create_proposal` (process_create_proposal.rs):
`freshAccount` is `proposal_account.data_is_empty()`; PDA/nonce address
checks and the account-provisioning CPIs are external plumbing.  The new
proposal is built from the zeroed account by the `Proposal::save_*`
writers, and the squad nonce advances. -/
def createProposal (isSigner freshAccount : Bool) (squadKey creator : ℕ)
    (squad : Squad) (proposal_type votes_num : ℕ) (start close : ℤ)
    (amount minimum_out sourceKey targetKey memberKey : ℕ) (now : ℤ) :
    Except ProgErr (Proposal × Squad) :=
  if ¬ isSigner then Except.error ProgErr.MissingRequiredSignature
  else if ¬ freshAccount then Except.error ProgErr.AccountAlreadyInitialized
  else if ¬ memberExists squad creator then Except.error ProgErr.InvalidAccountData
  else if squad.openDraft then Except.error ProgErr.InvalidInstructionData
  else
    let nonce := squad.proposal_nonce + 1
    let startTs := if squad.allocation_type = multisigAlloc then now else start
    if proposal_type ≠ 0 ∧ votes_num ≠ 2 then Except.error ProgErr.InvalidArgument
    else
      let withSquad := fun (p : Proposal) =>
        Except.ok (p, { squad with proposal_nonce := nonce })
      if proposal_type = 0 then
        if squad.allocation_type = multisigAlloc then Except.error ProgErr.InvalidArgument
        else withSquad (saveText freshProposal proposal_type votes_num squadKey startTs close nonce)
      else if proposal_type = 1 then
        if squad.allocation_type = multisigAlloc then Except.error ProgErr.InvalidArgument
        else if amount < 1 ∨ amount > 100 then Except.error ProgErr.InvalidArgument
        else withSquad (saveCore freshProposal proposal_type votes_num squadKey startTs close amount nonce)
      else if proposal_type = 2 then
        if ¬ quorumAmountCheck squad.allocation_type squad.members.length amount then
          Except.error ProgErr.InvalidInstructionData
        else withSquad (saveCore freshProposal proposal_type votes_num squadKey startTs close amount nonce)
      else if proposal_type = 3 ∨ proposal_type = 4 then
        withSquad (saveWithdraw freshProposal proposal_type sourceKey targetKey votes_num squadKey startTs close amount nonce)
      else if proposal_type = 5 then
        withSquad (saveMember freshProposal proposal_type memberKey votes_num squadKey startTs close amount nonce)
      else if proposal_type = 6 then
        withSquad (saveMember freshProposal proposal_type memberKey votes_num squadKey startTs close 0 nonce)
      else if proposal_type = 7 then
        if squad.allocation_type = multisigAlloc then Except.error ProgErr.InvalidArgument
        else withSquad (saveMember freshProposal proposal_type memberKey votes_num squadKey startTs close amount nonce)
      else if proposal_type = 8 then
        withSquad (saveSwap freshProposal proposal_type sourceKey targetKey votes_num squadKey startTs close amount minimum_out nonce)
      else Except.error ProgErr.InvalidArgument

/-- Specification-side value `max(v)` from the tipping property of the
spec: the largest entry of the tally vector (0 for an empty vector). -/
def maxVal (v : List ℕ) : ℕ :=
  v.foldl max 0

/-- Index of the first occurrence of `a` in a list (length if absent). -/
def firstIdxOf (a : ℕ) : List ℕ → ℕ
  | [] => 0
  | x :: t => if x = a then 0 else firstIdxOf a t + 1

/-- Specification-side value `secondMax(v)`: the largest entry remaining
after removing the first occurrence of the maximum. -/
def secondMaxVal (v : List ℕ) : ℕ :=
  maxVal (v.eraseIdx (firstIdxOf (maxVal v) v))

/-- The skipping maximum of the runner-up scan, value level. -/
def skipMax (m : ℕ) (a : ℕ) (q : ℕ × ℕ) : ℕ :=
  if q.1 = m then a else max a q.2

/-- A concrete TeamCoordination squad (squad account key 10) used in
concrete evaluations: two members, quorum 40, support 0, nonce 5,
member lock at 2. -/
def tcSquadEx : Squad :=
  { is_initialized := true
    openDraft := false
    allocation_type := 1
    vote_support := 0
    vote_quorum := 40
    mint_address := 0
    proposal_nonce := 5
    member_lock_index := 2
    members := [(1, 101), (2, 102)] }

/-- A concrete Multisig squad (squad account key 10): three members,
absolute quorum 2, nonce 9, member lock at 7. -/
def msSquadEx : Squad :=
  { is_initialized := true
    openDraft := false
    allocation_type := 2
    vote_support := 0
    vote_quorum := 2
    mint_address := 0
    proposal_nonce := 9
    member_lock_index := 7
    members := [(1, 101), (2, 102), (3, 103)] }

/-- A concrete open Text proposal (account key 20) of squad 10, at
proposal index 3, voting window [0, 100]. -/
def tcPropText : Proposal :=
  { freshProposal with
    is_initialized := true
    proposal_type := 0
    squad_address := 10
    votes_num := 2
    close_timestamp := 100
    proposal_index := 3 }

/-- A concrete open binary (WithdrawSol) proposal of squad 10 at index 3. -/
def tcPropBinary : Proposal :=
  { tcPropText with proposal_type := 3 }

/-- A concrete decided (execute-ready) Support proposal of squad 10 with
its frozen snapshot: 1 of 2 members voted, 1 of 2 supply units in favor. -/
def tcPropReady : Proposal :=
  { freshProposal with
    is_initialized := true
    proposal_type := 1
    execution_amount := 50
    squad_address := 10
    votes_num := 2
    has_voted := [1]
    has_voted_num := 1
    votes := [1, 0, 0, 0, 0]
    supply_at_execute := 2
    members_at_execute := 2
    execute_ready := true
    proposal_index := 1 }

/-- A concrete decided AddMember proposal of squad 10: mint 70 equity
units to new member 9 (`execution_source` is the squad key as written by
`save_member`). -/
def tcPropAdd : Proposal :=
  { freshProposal with
    is_initialized := true
    proposal_type := 5
    execution_amount := 70
    execution_source := 10
    execution_destination := 9
    squad_address := 10
    votes_num := 2
    has_voted := [1]
    has_voted_num := 1
    votes := [3, 0, 0, 0, 0]
    supply_at_execute := 3
    members_at_execute := 1
    execute_ready := true
    proposal_index := 4 }

/-- A concrete open Multisig Quorum proposal of squad 10 at index 3:
index 3 is already fenced by `msSquadEx.member_lock_index = 7` and the
proposal is not execute-ready. -/
def msPropOpen : Proposal :=
  { freshProposal with
    is_initialized := true
    proposal_type := 2
    execution_amount := 2
    squad_address := 10
    votes_num := 2
    close_timestamp := 100
    proposal_index := 3 }

/-- `msPropOpen` after two pass votes: meets the live quorum 2 of
`msSquadEx` without ever being marked execute-ready. -/
def msPropPassing : Proposal :=
  { msPropOpen with votes := [2, 0, 0, 0, 0], has_voted := [2, 3], has_voted_num := 2 }

/-- An initialized proposal whose stored `squad_address` (11) differs
from the supplied squad account key (10). -/
def propMismatch : Proposal :=
  { msPropOpen with squad_address := 11 }

/-- Result of voter 1 casting the fail vote on `msPropOpen` against
`msSquadEx` raised to quorum 3: rejected (terminal) and also marked
execute-ready with the quorum snapshotted. -/
def msPropRejected : Proposal :=
  { msPropOpen with
    votes := [0, 1, 0, 0, 0]
    has_voted := [1]
    has_voted_num := 1
    threshold_at_execute := 3
    executed := true
    execute_ready := true }

/-- Result of voter 1 casting the fail vote on `msPropOpen` against
`msSquadEx` (quorum 2): still undecided. -/
def msPropVoted : Proposal :=
  { msPropOpen with
    votes := [0, 1, 0, 0, 0]
    has_voted := [1]
    has_voted_num := 1 }

/-- Result of voter 1 casting a weight-5 pass vote on `tcPropText`
against `tcSquadEx` with supply 100. -/
def tcPropTextVoted : Proposal :=
  { tcPropText with
    votes := [5, 0, 0, 0, 0]
    has_voted := [1]
    has_voted_num := 1
    supply_at_execute := 100
    members_at_execute := 2 }

/-- Result of voter 1 casting a weight-60 reject vote on `tcPropBinary`
with supply 100: the rejection is mathematically certain, so the
proposal is closed terminally. -/
def tcPropBinRejected : Proposal :=
  { tcPropBinary with
    votes := [0, 60, 0, 0, 0]
    has_voted := [1]
    has_voted_num := 1
    supply_at_execute := 100
    members_at_execute := 2
    executed := true }

/-- Folding `max` commutes with a `max` in the seed. -/
lemma foldl_max_shift (l : List ℕ) : ∀ a b : ℕ, l.foldl max (max a b) = max a (l.foldl max b) := by
  induction l with
  | nil => intro a b; rfl
  | cons x t ih =>
    intro a b
    simp only [List.foldl_cons]
    rw [max_assoc, ih]

lemma maxVal_cons (x : ℕ) (t : List ℕ) : maxVal (x :: t) = max x (maxVal t) := by
  show t.foldl max (max 0 x) = max x (t.foldl max 0)
  rw [max_comm 0 x, foldl_max_shift]

lemma le_maxVal {x : ℕ} {v : List ℕ} (h : x ∈ v) : x ≤ maxVal v := by
  induction v with
  | nil => cases h
  | cons y t ih =>
    rw [maxVal_cons]
    rcases List.mem_cons.mp h with h1 | h1
    · exact h1 ▸ le_max_left _ _
    · exact le_trans (ih h1) (le_max_right _ _)

lemma maxVal_le {v : List ℕ} {b : ℕ} (h : ∀ x ∈ v, x ≤ b) : maxVal v ≤ b := by
  induction v with
  | nil => exact Nat.zero_le b
  | cons y t ih =>
    rw [maxVal_cons]
    exact max_le (h y (List.mem_cons_self y t)) (ih fun x hx => h x (List.mem_cons_of_mem y hx))

lemma maxVal_mem {v : List ℕ} (h : v ≠ []) : maxVal v ∈ v := by
  induction v with
  | nil => exact absurd rfl h
  | cons x t ih =>
    rw [maxVal_cons]
    rcases eq_or_ne t [] with ht | ht
    · subst ht; simp [maxVal]
    · rcases max_cases x (maxVal t) with ⟨he, _⟩ | ⟨he, _⟩
      · rw [he]; exact List.mem_cons_self x t
      · rw [he]; exact List.mem_cons_of_mem x (ih ht)

lemma getD_mem_of_lt (v : List ℕ) {j : ℕ} (h : j < v.length) : v.getD j 0 ∈ v := by
  rw [List.getD_eq_getElem _ _ h]
  exact List.getElem_mem h

lemma getD_le_maxVal (v : List ℕ) (i : ℕ) : v.getD i 0 ≤ maxVal v := by
  rcases Nat.lt_or_ge i v.length with h | h
  · exact le_maxVal (getD_mem_of_lt v h)
  · rw [List.getD_eq_default _ _ h]; exact Nat.zero_le _

/-- Pairs of `enumFrom n v` carry indices that read back through `getD`. -/
lemma mem_enumFrom_spec : ∀ (v : List ℕ) (n : ℕ) (q : ℕ × ℕ), q ∈ v.enumFrom n →
    n ≤ q.1 ∧ q.1 - n < v.length ∧ v.getD (q.1 - n) 0 = q.2 := by
  intro v
  induction v with
  | nil => intro n q h; simp [List.enumFrom] at h
  | cons x t ih =>
    intro n q h
    rcases List.mem_cons.mp h with h1 | h1
    · subst h1
      refine ⟨le_refl _, by simp, by simp⟩
    · obtain ⟨h2, h3, h4⟩ := ih (n + 1) q h1
      refine ⟨by omega, by simp only [List.length_cons]; omega, ?_⟩
      have he : q.1 - n = (q.1 - (n + 1)) + 1 := by omega
      rw [he, List.getD_cons_succ]
      exact h4

lemma mem_enum_spec (v : List ℕ) (q : ℕ × ℕ) (h : q ∈ v.enum) :
    q.1 < v.length ∧ v.getD q.1 0 = q.2 := by
  obtain ⟨_, h2, h3⟩ := mem_enumFrom_spec v 0 q h
  rw [Nat.sub_zero] at h2 h3
  exact ⟨h2, h3⟩

/-- The value component of the leading-slot fold is a running maximum. -/
lemma foldl_step1_snd : ∀ (l : List (ℕ × ℕ)) (acc : ℕ × ℕ),
    (l.foldl step1 acc).2 = l.foldl (fun m q => max m q.2) acc.2 := by
  intro l
  induction l with
  | nil => intro acc; rfl
  | cons q t ih =>
    intro acc
    simp only [List.foldl_cons, step1]
    rw [ih]
    congr 1
    by_cases h : q.2 > acc.2
    · rw [if_pos h]; exact (max_eq_right (le_of_lt h)).symm
    · rw [if_neg h]; exact (max_eq_left (le_of_not_lt h)).symm

/-- The leading-slot fold returns its seed or one of the scanned pairs. -/
lemma foldl_step1_mem : ∀ (l : List (ℕ × ℕ)) (acc : ℕ × ℕ),
    l.foldl step1 acc = acc ∨ l.foldl step1 acc ∈ l := by
  intro l
  induction l with
  | nil => intro acc; left; rfl
  | cons q t ih =>
    intro acc
    simp only [List.foldl_cons, step1]
    by_cases h : q.2 > acc.2
    · rw [if_pos h]
      rcases ih q with h1 | h1
      · right; rw [h1]; exact List.mem_cons_self q t
      · right; exact List.mem_cons_of_mem q h1
    · rw [if_neg h]
      rcases ih acc with h1 | h1
      · left; exact h1
      · right; exact List.mem_cons_of_mem q h1

/-- The leading-slot fold can only report value 0 at index 0. -/
lemma foldl_step1_zero : ∀ (l : List (ℕ × ℕ)) (acc : ℕ × ℕ), (acc.2 = 0 → acc.1 = 0) →
    (l.foldl step1 acc).2 = 0 → (l.foldl step1 acc).1 = 0 := by
  intro l
  induction l with
  | nil => intro acc h; exact h
  | cons q t ih =>
    intro acc h
    simp only [List.foldl_cons, step1]
    by_cases hq : q.2 > acc.2
    · rw [if_pos hq]; exact ih q (fun h2 => absurd (h2 ▸ hq) (by omega))
    · rw [if_neg hq]; exact ih acc h

lemma enumFrom_foldl_maxsnd : ∀ (v : List ℕ) (n a : ℕ),
    (v.enumFrom n).foldl (fun m q => max m q.2) a = v.foldl max a := by
  intro v
  induction v with
  | nil => intro n a; rfl
  | cons x t ih => intro n a; exact ih (n + 1) (max a x)

lemma mostIndex_snd (v : List ℕ) : (v.enum.foldl step1 (0, 0)).2 = maxVal v := by
  rw [foldl_step1_snd]
  exact enumFrom_foldl_maxsnd v 0 0

lemma getD_mostIndex (v : List ℕ) : v.getD (mostIndex v) 0 = maxVal v := by
  have hsnd := mostIndex_snd v
  unfold mostIndex
  rcases foldl_step1_mem v.enum (0, 0) with h | h
  · rw [h] at hsnd ⊢
    have h0 : maxVal v = 0 := hsnd.symm
    rw [h0]
    exact Nat.le_zero.mp (h0 ▸ getD_le_maxVal v 0)
  · obtain ⟨_, hgd⟩ := mem_enum_spec v _ h
    rw [hgd, hsnd]

lemma mostIndex_of_maxVal_zero (v : List ℕ) (h : maxVal v = 0) : mostIndex v = 0 := by
  unfold mostIndex
  exact foldl_step1_zero v.enum (0, 0) (fun _ => rfl) ((mostIndex_snd v).trans h)

lemma mostIndex_lt_length (v : List ℕ) (h : 0 < maxVal v) : mostIndex v < v.length := by
  have hsnd := mostIndex_snd v
  unfold mostIndex
  rcases foldl_step1_mem v.enum (0, 0) with h1 | h1
  · rw [h1] at hsnd; omega
  · exact (mem_enum_spec v _ h1).1

/-- With a nonzero leading index the runner-up fold never resets, and on
pairs away from the leading index it is the leading-slot fold. -/
lemma foldl_step2_eq_step1 (m : ℕ) : ∀ (l : List (ℕ × ℕ)) (acc : ℕ × ℕ),
    (∀ q ∈ l, q.1 ≠ m) → l.foldl (step2 m) acc = l.foldl step1 acc := by
  intro l
  induction l with
  | nil => intro acc _; rfl
  | cons q t ih =>
    intro acc h
    simp only [List.foldl_cons, step2, step1]
    rw [if_neg (h q (List.mem_cons_self q t))]
    exact ih _ (fun r hr => h r (List.mem_cons_of_mem q hr))

lemma foldl_step2_snd (m : ℕ) (hm : m ≠ 0) : ∀ (l : List (ℕ × ℕ)) (acc : ℕ × ℕ),
    (l.foldl (step2 m) acc).2 = l.foldl (skipMax m) acc.2 := by
  intro l
  induction l with
  | nil => intro acc; rfl
  | cons q t ih =>
    intro acc
    simp only [List.foldl_cons, step2, skipMax]
    by_cases h1 : q.1 = m
    · rw [if_pos h1, if_pos h1, if_neg hm, ih]
    · rw [if_neg h1, if_neg h1, ih]
      congr 1
      by_cases h2 : q.2 > acc.2
      · rw [if_pos h2]; exact (max_eq_right (le_of_lt h2)).symm
      · rw [if_neg h2]; exact (max_eq_left (le_of_not_lt h2)).symm

lemma foldl_step2_mem (m : ℕ) (hm : m ≠ 0) : ∀ (l : List (ℕ × ℕ)) (acc : ℕ × ℕ),
    l.foldl (step2 m) acc = acc ∨ l.foldl (step2 m) acc ∈ l := by
  intro l
  induction l with
  | nil => intro acc; left; rfl
  | cons q t ih =>
    intro acc
    simp only [List.foldl_cons, step2]
    by_cases h1 : q.1 = m
    · rw [if_pos h1, if_neg hm]
      rcases ih acc with h2 | h2
      · left; exact h2
      · right; exact List.mem_cons_of_mem q h2
    · rw [if_neg h1]
      by_cases h2 : q.2 > acc.2
      · rw [if_pos h2]
        rcases ih q with h3 | h3
        · right; rw [h3]; exact List.mem_cons_self q t
        · right; exact List.mem_cons_of_mem q h3
      · rw [if_neg h2]
        rcases ih acc with h3 | h3
        · left; exact h3
        · right; exact List.mem_cons_of_mem q h3

lemma enumFrom_foldl_skipMax_lt : ∀ (v : List ℕ) (n a m : ℕ), m < n →
    (v.enumFrom n).foldl (skipMax m) a = v.foldl max a := by
  intro v
  induction v with
  | nil => intro n a m _; rfl
  | cons x t ih =>
    intro n a m h
    show (t.enumFrom (n + 1)).foldl (skipMax m) (skipMax m a (n, x)) = t.foldl max (max a x)
    rw [skipMax, if_neg (by omega)]
    exact ih (n + 1) (max a x) m (by omega)

lemma enumFrom_foldl_skipMax_ge : ∀ (v : List ℕ) (n a m : ℕ), n ≤ m →
    (v.enumFrom n).foldl (skipMax m) a = (v.eraseIdx (m - n)).foldl max a := by
  intro v
  induction v with
  | nil => intro n a m _; rfl
  | cons x t ih =>
    intro n a m h
    rcases eq_or_ne n m with he | he
    · subst he
      rw [Nat.sub_self]
      show (t.enumFrom (n + 1)).foldl (skipMax n) (skipMax n a (n, x)) =
        ((x :: t).eraseIdx 0).foldl max a
      rw [skipMax, if_pos rfl, List.eraseIdx_cons_zero]
      exact enumFrom_foldl_skipMax_lt t (n + 1) a n (by omega)
    · have hlt : n < m := lt_of_le_of_ne h he
      have hsub : m - n = (m - (n + 1)) + 1 := by omega
      show (t.enumFrom (n + 1)).foldl (skipMax m) (skipMax m a (n, x)) =
        ((x :: t).eraseIdx (m - n)).foldl max a
      rw [skipMax, if_neg (by omega), hsub, List.eraseIdx_cons_succ, List.foldl_cons]
      exact ih (n + 1) (max a x) m (by omega)

lemma enum_foldl_skipMax (v : List ℕ) (m : ℕ) :
    v.enum.foldl (skipMax m) 0 = maxVal (v.eraseIdx m) := by
  have h := enumFrom_foldl_skipMax_ge v 0 0 m (Nat.zero_le m)
  simpa using h

lemma getD_mem_eraseIdx : ∀ (v : List ℕ) (i j : ℕ), j < v.length → i ≠ j →
    v.getD j 0 ∈ v.eraseIdx i := by
  intro v
  induction v with
  | nil => intro i j h _; simp at h
  | cons x t ih =>
    intro i j hj hij
    cases j with
    | zero =>
      cases i with
      | zero => exact absurd rfl hij
      | succ k =>
        rw [List.eraseIdx_cons_succ, List.getD_cons_zero]
        exact List.mem_cons_self x _
    | succ j2 =>
      cases i with
      | zero =>
        rw [List.eraseIdx_cons_zero, List.getD_cons_succ]
        exact getD_mem_of_lt t (by simpa using hj)
      | succ k =>
        rw [List.eraseIdx_cons_succ, List.getD_cons_succ]
        exact List.mem_cons_of_mem x (ih k j2 (by simpa using hj) (by omega))

/-- Erasing any position holding the maximum yields the same maximum. -/
lemma maxVal_eraseIdx_eq {v : List ℕ} {i j : ℕ} (hi : i < v.length) (hj : j < v.length)
    (hvi : v.getD i 0 = maxVal v) (hvj : v.getD j 0 = maxVal v) :
    maxVal (v.eraseIdx i) = maxVal (v.eraseIdx j) := by
  rcases eq_or_ne i j with h | h
  · rw [h]
  · have key : ∀ a b : ℕ, b < v.length → a ≠ b → v.getD b 0 = maxVal v →
        maxVal (v.eraseIdx a) = maxVal v := by
      intro a b hb hab hvb
      apply le_antisymm
      · exact maxVal_le fun x hx =>
          le_maxVal ((v.eraseIdx_sublist a).subset hx)
      · calc maxVal v = v.getD b 0 := hvb.symm
          _ ≤ maxVal (v.eraseIdx a) := le_maxVal (getD_mem_eraseIdx v a b hb hab)
    rw [key i j hj h hvj, key j i hi (Ne.symm h) hvi]

lemma getD_secondMostIndex (v : List ℕ) :
    v.getD (secondMostIndex v) 0 = maxVal (v.eraseIdx (mostIndex v)) := by
  by_cases hm : mostIndex v = 0
  · cases v with
    | nil => rw [hm]; rfl
    | cons x t =>
      rw [hm, List.eraseIdx_cons_zero]
      have henum : (x :: t).enum = (0, x) :: t.enumFrom 1 := rfl
      have hne : ∀ q ∈ t.enumFrom 1, q.1 ≠ mostIndex (x :: t) := by
        intro q hq
        have h1 := (mem_enumFrom_spec t 1 q hq).1
        omega
      unfold secondMostIndex
      rw [henum, List.foldl_cons]
      have hstep : step2 (mostIndex (x :: t)) (0, 0) (0, x) = (1, 0) := by
        rw [step2, if_pos (by omega), if_pos hm]
      rw [hstep, foldl_step2_eq_step1 _ _ _ hne]
      have hsnd : ((t.enumFrom 1).foldl step1 (1, 0)).2 = maxVal t := by
        rw [foldl_step1_snd]
        exact enumFrom_foldl_maxsnd t 1 0
      rcases foldl_step1_mem (t.enumFrom 1) (1, 0) with h1 | h1
      · rw [h1] at hsnd ⊢
        rw [List.getD_cons_succ]
        have h0 : maxVal t = 0 := hsnd.symm
        rw [h0]
        exact Nat.le_zero.mp (h0 ▸ getD_le_maxVal t 0)
      · obtain ⟨h2, h3, h4⟩ := mem_enumFrom_spec t 1 _ h1
        set r := (t.enumFrom 1).foldl step1 (1, 0) with hr
        have h5 : r.1 = (r.1 - 1) + 1 := by omega
        rw [h5, List.getD_cons_succ, h4, hsnd]
  · unfold secondMostIndex
    have hsnd : (v.enum.foldl (step2 (mostIndex v)) (0, 0)).2 =
        maxVal (v.eraseIdx (mostIndex v)) := by
      rw [foldl_step2_snd _ hm, enum_foldl_skipMax]
    rcases foldl_step2_mem (mostIndex v) hm v.enum (0, 0) with h1 | h1
    · rw [h1] at hsnd ⊢
      have h0 : maxVal (v.eraseIdx (mostIndex v)) = 0 := hsnd.symm
      rw [h0]
      cases v with
      | nil => rfl
      | cons x t =>
        rw [List.getD_cons_zero]
        have hx : x ∈ (x :: t).eraseIdx (mostIndex (x :: t)) := by
          obtain ⟨k, hk⟩ := Nat.exists_eq_succ_of_ne_zero hm
          rw [hk, List.eraseIdx_cons_succ]
          exact List.mem_cons_self x _
        exact Nat.le_zero.mp (h0 ▸ le_maxVal hx)
    · obtain ⟨_, hgd⟩ := mem_enum_spec v _ h1
      rw [hgd, hsnd]

lemma firstIdxOf_spec {a : ℕ} : ∀ {v : List ℕ}, a ∈ v →
    firstIdxOf a v < v.length ∧ v.getD (firstIdxOf a v) 0 = a := by
  intro v
  induction v with
  | nil => intro h; cases h
  | cons x t ih =>
    intro h
    by_cases hx : x = a
    · refine ⟨?_, ?_⟩ <;> rw [firstIdxOf, if_pos hx]
      · simp
      · rw [List.getD_cons_zero]; exact hx
    · have hmem : a ∈ t := by
        rcases List.mem_cons.mp h with h1 | h1
        · exact absurd h1.symm hx
        · exact h1
      obtain ⟨h1, h2⟩ := ih hmem
      refine ⟨?_, ?_⟩ <;> rw [firstIdxOf, if_neg hx]
      · simp only [List.length_cons]; omega
      · rw [List.getD_cons_succ]; exact h2

lemma getProposalChecked_ok_eq {squadKey : ℕ} {p p0 : Proposal}
    (h : getProposalChecked squadKey p = Except.ok p0) : p0 = p := by
  unfold getProposalChecked at h
  split at h
  · exact absurd h (by simp)
  · injection h with h1
    exact h1.symm

lemma castVote_error_of_check {squadKey mintKey proposalKey voter : ℕ} {squad : Squad}
    {p : Proposal} {weight supply : ℕ} {now : ℤ} {receipts : ReceiptLedger} {vote : ℕ}
    {e : ProgErr} (hB : ¬ (p.is_initialized ∧ p.squad_address ≠ squadKey))
    (hC : castVoteCheck squad p mintKey proposalKey voter now receipts vote = some e) :
    castVote true squadKey mintKey proposalKey voter squad p weight supply now receipts vote
      = Except.error e := by
  unfold castVote getProposalChecked
  rw [if_neg hB]
  simp [hC]

lemma castMsVote_error_of_check {squadKey proposalKey voter : ℕ} {squad : Squad}
    {p : Proposal} {now : ℤ} {receipts : ReceiptLedger} {vote : ℕ} {e : ProgErr}
    (hB : ¬ (p.is_initialized ∧ p.squad_address ≠ squadKey))
    (hC : castMsVoteCheck squad p proposalKey voter now receipts vote = some e) :
    castMultisigVote true squadKey proposalKey voter squad p now receipts vote
      = Except.error e := by
  unfold castMultisigVote getProposalChecked
  rw [if_neg hB]
  simp [hC]

lemma executeProposal_error_of_check {squadKey executioner sourceKey destKey : ℕ}
    {squad : Squad} {p : Proposal} {supply mea : ℕ} {now : ℤ} {e : ProgErr}
    (hB : ¬ (p.is_initialized ∧ p.squad_address ≠ squadKey))
    (hC : execTCCheck squad p executioner sourceKey destKey supply = some e) :
    executeProposal true squadKey executioner sourceKey destKey squad p supply mea now
      = Except.error e := by
  unfold executeProposal getProposalChecked
  rw [if_neg hB]
  simp [hC]

lemma castVote_ok_inv {squadKey mintKey proposalKey voter : ℕ} {squad : Squad}
    {p : Proposal} {weight supply : ℕ} {now : ℤ} {receipts : ReceiptLedger} {vote : ℕ}
    {p' : Proposal} {r' : ReceiptLedger}
    (h : castVote true squadKey mintKey proposalKey voter squad p weight supply now receipts vote
      = Except.ok (p', r')) :
    castVoteCheck squad p mintKey proposalKey voter now receipts vote = none
    ∧ castVoteApply squad p voter vote weight supply = some p'
    ∧ r' = receipts ++ [(proposalKey, voter)] := by
  unfold castVote at h
  rw [if_neg (by simp)] at h
  split at h
  · exact absurd h (by simp)
  · next p0 heq =>
    obtain rfl := getProposalChecked_ok_eq heq
    split at h
    · exact absurd h (by simp)
    · next hchk =>
      split at h
      · exact absurd h (by simp)
      · next p2 happ =>
        injection h with h1
        injection h1 with h2 h3
        exact ⟨hchk, h2 ▸ happ, h3.symm⟩

lemma castMultisigVote_ok_inv {squadKey proposalKey voter : ℕ} {squad : Squad}
    {p : Proposal} {now : ℤ} {receipts : ReceiptLedger} {vote : ℕ}
    {p' : Proposal} {r' : ReceiptLedger}
    (h : castMultisigVote true squadKey proposalKey voter squad p now receipts vote
      = Except.ok (p', r')) :
    castMsVoteCheck squad p proposalKey voter now receipts vote = none
    ∧ castMsVoteApply squad p voter vote = some p'
    ∧ r' = receipts ++ [(proposalKey, voter)] := by
  unfold castMultisigVote at h
  rw [if_neg (by simp)] at h
  split at h
  · exact absurd h (by simp)
  · next p0 heq =>
    obtain rfl := getProposalChecked_ok_eq heq
    split at h
    · exact absurd h (by simp)
    · next hchk =>
      split at h
      · exact absurd h (by simp)
      · next p4 happ =>
        injection h with h1
        injection h1 with h2 h3
        exact ⟨hchk, h2 ▸ happ, h3.symm⟩

lemma castVoteCheck_none_facts {squad : Squad} {p : Proposal}
    {mintKey proposalKey voter : ℕ} {now : ℤ} {receipts : ReceiptLedger} {vote : ℕ}
    (h : castVoteCheck squad p mintKey proposalKey voter now receipts vote = none) :
    p.executed = false ∧ (proposalKey, voter) ∉ receipts := by
  unfold castVoteCheck at h
  split_ifs at h
  simp_all

lemma castMsVoteCheck_none_facts {squad : Squad} {p : Proposal}
    {proposalKey voter : ℕ} {now : ℤ} {receipts : ReceiptLedger} {vote : ℕ}
    (h : castMsVoteCheck squad p proposalKey voter now receipts vote = none) :
    p.executed = false ∧ (proposalKey, voter) ∉ receipts := by
  unfold castMsVoteCheck at h
  split_ifs at h
  simp_all

lemma castVoteCheck_executed {squad : Squad} {p : Proposal}
    {mintKey proposalKey voter : ℕ} {now : ℤ} {receipts : ReceiptLedger} {vote : ℕ}
    (h : p.executed = true) :
    castVoteCheck squad p mintKey proposalKey voter now receipts vote ≠ none := by
  intro hc
  exact absurd h (by simp [(castVoteCheck_none_facts hc).1])

lemma execTCCheck_executed {squad : Squad} {p : Proposal}
    {executioner sourceKey destKey supply : ℕ} (h : p.executed = true) :
    execTCCheck squad p executioner sourceKey destKey supply ≠ none := by
  intro hc
  unfold execTCCheck at hc
  split_ifs at hc


/-- Characterization of a successful multisig tally step
(process_cast_multisig_vote.rs lines 157-183). -/
lemma castMsVoteApply_char {squad : Squad} {p : Proposal} {voter vote : ℕ} {p' : Proposal}
    (h : castMsVoteApply squad p voter vote = some p') :
    p'.votes = p.votes.set vote (p.votes.getD vote 0 + 1)
    ∧ p'.votes.getD 0 0 + p'.votes.getD 1 0 ≤ squad.members.length
    ∧ p'.executed = (p.executed || decide (squad.vote_quorum >
        (squad.members.length - (p'.votes.getD 0 0 + p'.votes.getD 1 0)) + p'.votes.getD 0 0))
    ∧ p'.execute_ready = (p.execute_ready || decide (squad.vote_quorum >
        (squad.members.length - (p'.votes.getD 0 0 + p'.votes.getD 1 0)) + p'.votes.getD 0 0)
        || decide (p'.votes.getD 0 0 ≥ squad.vote_quorum))
    ∧ p'.threshold_at_execute =
        (if p'.execute_ready = true then squad.vote_quorum else p.threshold_at_execute) := by
  unfold castMsVoteApply at h
  dsimp only at h
  split at h
  · exact absurd h (by simp)
  · next possible hguard =>
    unfold msPossibleVotesLeft at hguard
    split_ifs at hguard with hle
    injection hguard with hpos
    injection h with h1
    subst h1
    subst hpos
    refine ⟨?_, ?_, ?_, ?_, ?_⟩
    all_goals
      simp only [apply_ite Proposal.votes, apply_ite Proposal.executed,
        apply_ite Proposal.execute_ready, apply_ite Proposal.threshold_at_execute]
    · split_ifs <;> rfl
    · simpa using hle
    · split_ifs <;> simp_all
    · split_ifs <;> simp_all
    · split_ifs <;> simp_all

/-- Characterization of a successful TeamCoordination tally step on a
binary (non-Text) proposal (process_cast_vote.rs lines 195-292). -/
lemma castVoteApply_binary {squad : Squad} {p : Proposal} {voter vote weight supply : ℕ}
    {p' : Proposal} (h : castVoteApply squad p voter vote weight supply = some p')
    (ht : ¬ p.proposal_type = 0) :
    p'.votes = p.votes.set vote (p.votes.getD vote 0 + weight)
    ∧ p'.votes.sum ≤ supply
    ∧ p'.executed = (p.executed ||
        decide (p'.votes.getD 1 0 > p'.votes.getD 0 0 + (supply - p'.votes.sum))) := by
  unfold castVoteApply at h
  dsimp only at h
  simp only [if_neg ht] at h
  split at h
  · exact absurd h (by simp)
  · next possible hguard =>
    unfold tcPossibleVotesLeft at hguard
    split_ifs at hguard with hle
    injection hguard with hpos
    injection h with h1
    subst h1
    subst hpos
    refine ⟨?_, ?_, ?_⟩
    all_goals
      simp only [apply_ite Proposal.votes, apply_ite Proposal.executed]
    · split_ifs <;> rfl
    · simpa using hle
    · split_ifs <;> simp_all

lemma castVote_executed_notOk {isSigner : Bool} {squadKey mintKey proposalKey voter : ℕ}
    {squad : Squad} {p : Proposal} {weight supply : ℕ} {now : ℤ}
    {receipts : ReceiptLedger} {vote : ℕ} (h : p.executed = true) :
    (castVote isSigner squadKey mintKey proposalKey voter squad p weight supply now
      receipts vote).isOk = false := by
  unfold castVote
  split
  · rfl
  · split
    · rfl
    · next p0 heq =>
      obtain rfl := getProposalChecked_ok_eq heq
      cases hc : castVoteCheck squad p0 mintKey proposalKey voter now receipts vote with
      | none => exact absurd hc (castVoteCheck_executed h)
      | some e => rfl

lemma executeProposal_executed_notOk {isSigner : Bool}
    {squadKey executioner sourceKey destKey : ℕ} {squad : Squad} {p : Proposal}
    {supply mea : ℕ} {now : ℤ} (h : p.executed = true) :
    (executeProposal isSigner squadKey executioner sourceKey destKey squad p supply mea
      now).isOk = false := by
  unfold executeProposal
  split
  · rfl
  · split
    · rfl
    · next p0 heq =>
      obtain rfl := getProposalChecked_ok_eq heq
      cases hc : execTCCheck squad p0 executioner sourceKey destKey supply with
      | none => exact absurd hc (execTCCheck_executed h)
      | some e => rfl

/-- With the execute-ready snapshot in force, the TeamCoordination
quorum/support check does not read the live mint supply. -/
lemma execTCCheck_ready_supply {squad : Squad} {p : Proposal}
    (executioner sourceKey destKey s1 s2 : ℕ) :
    execTCCheck squad { p with execute_ready := true } executioner sourceKey destKey s1
      = execTCCheck squad { p with execute_ready := true } executioner sourceKey destKey s2 := by
  unfold execTCCheck tcExecutePercents
  simp

lemma executeProposal_ready_supply_irrel (isSigner : Bool)
    (squadKey executioner sourceKey destKey : ℕ) (squad : Squad) (p : Proposal)
    (s1 s2 mea : ℕ) (now : ℤ) :
    executeProposal isSigner squadKey executioner sourceKey destKey squad
      { p with execute_ready := true } s1 mea now
    = executeProposal isSigner squadKey executioner sourceKey destKey squad
      { p with execute_ready := true } s2 mea now := by
  unfold executeProposal
  cases hq : getProposalChecked squadKey { p with execute_ready := true } with
  | error e => simp only [hq]
  | ok p0 =>
    obtain rfl := getProposalChecked_ok_eq hq
    simp only [hq]
    rw [execTCCheck_ready_supply executioner sourceKey destKey s1 s2]

/-- With the execute-ready snapshot in force, the multisig threshold
check does not read the live quorum. -/
lemma execMsCheck_ready_quorum (executioner sourceKey destKey : ℕ) (squad : Squad)
    (p : Proposal) (q1 q2 : ℕ) :
    execMsCheck { squad with vote_quorum := q1 } { p with execute_ready := true }
      executioner sourceKey destKey
    = execMsCheck { squad with vote_quorum := q2 } { p with execute_ready := true }
      executioner sourceKey destKey := by
  unfold execMsCheck msThresholdReached
  simp [memberExists]

/-- The multisig effect dispatch accepts or rejects independently of the
live quorum (the RemoveMember branch may write different quorums, but
the ok/error outcome is the same). -/
lemma execMsDispatch_quorum_isOk (destKey : ℕ) (squad : Squad) (p : Proposal)
    (q1 q2 : ℕ) :
    (execMsDispatch destKey { squad with vote_quorum := q1 } p).isOk
    = (execMsDispatch destKey { squad with vote_quorum := q2 } p).isOk := by
  unfold execMsDispatch
  simp only [memberExists]
  split_ifs <;> rfl

lemma executeMsProposal_quorum_isOk (isSigner : Bool)
    (squadKey executioner sourceKey destKey : ℕ) (squad : Squad) (p : Proposal)
    (now : ℤ) (q1 q2 : ℕ) :
    (executeMultisigProposal isSigner squadKey executioner sourceKey destKey
      { squad with vote_quorum := q1 } { p with execute_ready := true } now).isOk
    = (executeMultisigProposal isSigner squadKey executioner sourceKey destKey
      { squad with vote_quorum := q2 } { p with execute_ready := true } now).isOk := by
  unfold executeMultisigProposal
  cases hb : isSigner
  · rfl
  · cases hq : getProposalChecked squadKey { p with execute_ready := true } with
    | error e => simp only [hq]
    | ok p0 =>
      obtain rfl := getProposalChecked_ok_eq hq
      simp only [hq]
      rw [execMsCheck_ready_quorum executioner sourceKey destKey squad p q2 q1]
      cases hc : execMsCheck { squad with vote_quorum := q1 }
          { p with execute_ready := true } executioner sourceKey destKey with
      | some e => simp only [hc]
      | none =>
        simp only [hc]
        have hiso := execMsDispatch_quorum_isOk destKey squad
          { p with execute_ready := true } q1 q2
        cases hd1 : execMsDispatch destKey { squad with vote_quorum := q1 }
            { p with execute_ready := true } with
        | error e1 =>
          cases hd2 : execMsDispatch destKey { squad with vote_quorum := q2 }
              { p with execute_ready := true } with
          | error e2 => simp [hd1, hd2, Except.isOk, Except.toBool]
          | ok y2 =>
            rw [hd1, hd2] at hiso
            exact absurd hiso (by simp [Except.isOk, Except.toBool])
        | ok y1 =>
          cases hd2 : execMsDispatch destKey { squad with vote_quorum := q2 }
              { p with execute_ready := true } with
          | error e2 =>
            rw [hd1, hd2] at hiso
            exact absurd hiso (by simp [Except.isOk, Except.toBool])
          | ok y2 =>
            obtain ⟨s1r, p1r, e1r⟩ := y1
            obtain ⟨s2r, p2r, e2r⟩ := y2
            simp [hd1, hd2, Except.isOk, Except.toBool]

/-- The tipping test of the tally engine is exactly the value-level
criterion `max(v) > secondMax(v) + (S - sum(v))`. -/
lemma tip_equiv (v : List ℕ) (S : ℕ) :
    tipDecided v S = decide (maxVal v > secondMaxVal v + (S - v.sum)) := by
  unfold tipDecided secondMaxVal
  rw [getD_mostIndex, getD_secondMostIndex]
  by_cases h0 : maxVal v = 0
  · have h1 : mostIndex v = 0 := mostIndex_of_maxVal_zero v h0
    cases v with
    | nil => rw [h1]; rfl
    | cons x t =>
      have hx : x = 0 := Nat.le_zero.mp (h0 ▸ le_maxVal (List.mem_cons_self x t))
      have h2 : firstIdxOf (maxVal (x :: t)) (x :: t) = 0 := by
        rw [firstIdxOf, if_pos (by omega)]
      rw [h1, h2]
  · have hmem : maxVal v ∈ v := by
      apply maxVal_mem
      intro hv
      rw [hv] at h0
      exact h0 rfl
    obtain ⟨hj, hvj⟩ := firstIdxOf_spec hmem
    have hi : mostIndex v < v.length := mostIndex_lt_length v (Nat.pos_of_ne_zero h0)
    rw [maxVal_eraseIdx_eq hi hj (getD_mostIndex v) hvj]

/-- C1: Tipping correctness for multi-option (Text) proposals: the
early-decision test of the tally engine fires exactly when
`max(v) > secondMax(v) + (S - sum(v))` where `S` is the governance mint
supply, and it evaluates on the 5-slot tally vectors exactly as the spec
lists (true for [60000,0,0,0], [0,20,0,60000], [10000,0,0,50001] at
S = 100000; false for [50000,30000], [10000,0,0,50000] at S = 100000
and for [0,0] at every S). -/
theorem c1_tipping_correctness :
    (∀ (v : List ℕ) (S : ℕ),
      tipDecided v S = decide (maxVal v > secondMaxVal v + (S - v.sum)))
    ∧ tipDecided [60000, 0, 0, 0, 0] 100000 = true
    ∧ tipDecided [0, 20, 0, 60000, 0] 100000 = true
    ∧ tipDecided [10000, 0, 0, 50001, 0] 100000 = true
    ∧ tipDecided [50000, 30000, 0, 0, 0] 100000 = false
    ∧ tipDecided [10000, 0, 0, 50000, 0] 100000 = false
    ∧ (∀ S : ℕ, tipDecided [0, 0, 0, 0, 0] S = false) := by
  refine ⟨tip_equiv, by decide, by decide, by decide, by decide, by decide, ?_⟩
  intro S
  rw [tip_equiv]
  simp [maxVal, secondMaxVal, firstIdxOf]

/-- C2 counterexample: on a Multisig squad the membership-lock fence is
absent: with `member_lock_index = 7 ≥ proposal_index = 3` and the
proposal not yet execute-ready, casting a multisig vote and executing a
multisig proposal both succeed, contradicting the claim that the fence
applies in either allocation mode. -/
theorem c2_fence_counterexample :
    msSquadEx.member_lock_index = 7 ∧ msPropOpen.proposal_index = 3
    ∧ msPropOpen.execute_ready = false
    ∧ (castMultisigVote true 10 20 1 msSquadEx msPropOpen 50 [] 1).isOk = true
    ∧ msPropPassing.execute_ready = false
    ∧ (executeMultisigProposal true 10 1 0 0 msSquadEx msPropPassing 99).isOk = true := by
  decide

/-- C2 amended: the membership-lock fence holds for the TeamCoordination
operations: when a proposal bound to the squad is not execute-ready and
its index is at or below the squad lock index, `process_cast_vote` and
`process_execute_proposal` both fail with `InvalidInstructionData` (the
transaction aborts, so no state changes); the multisig vote and execute
paths perform no fence check. -/
theorem c2_fence_amended (squadKey mintKey proposalKey voter executioner sourceKey destKey : ℕ)
    (squad : Squad) (p : Proposal) (weight supply mea : ℕ) (now : ℤ)
    (receipts : ReceiptLedger) (vote : ℕ)
    (hsq : p.squad_address = squadKey)
    (halloc : squad.allocation_type = teamCoordination)
    (hready : p.execute_ready = false)
    (hlock : p.proposal_index ≤ squad.member_lock_index) :
    castVote true squadKey mintKey proposalKey voter squad p weight supply now receipts vote
      = Except.error ProgErr.InvalidInstructionData
    ∧ executeProposal true squadKey executioner sourceKey destKey squad p supply mea now
      = Except.error ProgErr.InvalidInstructionData := by
  have hB : ¬ (p.is_initialized ∧ p.squad_address ≠ squadKey) := by simp [hsq]
  constructor
  · apply castVote_error_of_check hB
    unfold castVoteCheck
    rw [if_neg (by simp [halloc]), if_pos ⟨by simp [hready], hlock⟩]
  · apply executeProposal_error_of_check hB
    unfold execTCCheck
    rw [if_pos ⟨by simp [hready], hlock⟩]

/-- C2 witness: the amended fence statement at a concrete fenced
TeamCoordination proposal. -/
theorem c2_fence_witness :
    castVote true 10 0 20 1 { tcSquadEx with member_lock_index := 7 } tcPropText 5 100 50 [] 0
      = Except.error ProgErr.InvalidInstructionData
    ∧ executeProposal true 10 1 0 0 { tcSquadEx with member_lock_index := 7 } tcPropText 100 0 50
      = Except.error ProgErr.InvalidInstructionData :=
  c2_fence_amended 10 0 20 1 1 0 0 { tcSquadEx with member_lock_index := 7 } tcPropText
    5 100 0 50 [] 0 (by decide) (by decide) (by decide) (by decide)

/-- C3 counterexample: with `execute_ready` set and the snapshot frozen,
the TeamCoordination dispatcher still compares the snapshot percentages
against the LIVE `vote_quorum` (process_execute_proposal.rs line 144):
the same decided proposal executes under live quorum 40 and fails under
live quorum 60, so the outcome is not independent of post-decision
changes to the live quorum. -/
theorem c3_threshold_counterexample :
    tcPropReady.execute_ready = true
    ∧ (executeProposal true 10 1 0 0 tcSquadEx tcPropReady 2 0 99).isOk = true
    ∧ (executeProposal true 10 1 0 0 { tcSquadEx with vote_quorum := 60 }
        tcPropReady 2 0 99).isOk = false := by
  refine ⟨rfl, ?_, ?_⟩ <;>
    norm_num [executeProposal, getProposalChecked, execTCCheck, execTCDispatch,
      tcExecutePercents, pct, memberExists, freshProposal, tcSquadEx, tcPropReady,
      Except.isOk, Except.toBool, teamCoordination, multisigAlloc]

/-- C3 amended: with `execute_ready` set, the execution outcome is
independent of the live mint supply and (at the percentage level) of the
live member count for TeamCoordination, and independent of the live
`vote_quorum` for Multisig; the TeamCoordination dispatcher however
still consults the live `vote_quorum`/`vote_support` (see the
counterexample). -/
theorem c3_threshold_amended :
    (∀ (isSigner : Bool) (squadKey executioner sourceKey destKey : ℕ) (squad : Squad)
      (p : Proposal) (s1 s2 mea : ℕ) (now : ℤ),
      executeProposal isSigner squadKey executioner sourceKey destKey squad
        { p with execute_ready := true } s1 mea now
      = executeProposal isSigner squadKey executioner sourceKey destKey squad
        { p with execute_ready := true } s2 mea now)
    ∧ (∀ hv ma sa lm1 lm2 ls1 ls2 pass : ℕ,
      tcExecutePercents true hv ma sa lm1 ls1 pass
        = tcExecutePercents true hv ma sa lm2 ls2 pass)
    ∧ (∀ pass thr q1 q2 : ℕ,
      msThresholdReached true pass thr q1 = msThresholdReached true pass thr q2)
    ∧ (∀ (isSigner : Bool) (squadKey executioner sourceKey destKey : ℕ) (squad : Squad)
      (p : Proposal) (now : ℤ) (q1 q2 : ℕ),
      (executeMultisigProposal isSigner squadKey executioner sourceKey destKey
        { squad with vote_quorum := q1 } { p with execute_ready := true } now).isOk
      = (executeMultisigProposal isSigner squadKey executioner sourceKey destKey
        { squad with vote_quorum := q2 } { p with execute_ready := true } now).isOk) := by
  refine ⟨?_, ?_, ?_, ?_⟩
  · intro isSigner squadKey executioner sourceKey destKey squad p s1 s2 mea now
    exact executeProposal_ready_supply_irrel isSigner squadKey executioner sourceKey
      destKey squad p s1 s2 mea now
  · intro hv ma sa lm1 lm2 ls1 ls2 pass
    simp [tcExecutePercents]
  · intro pass thr q1 q2
    simp [msThresholdReached]
  · intro isSigner squadKey executioner sourceKey destKey squad p now q1 q2
    exact executeMsProposal_quorum_isOk isSigner squadKey executioner sourceKey destKey
      squad p now q1 q2

/-- C4 counterexample: a multisig fail vote that makes rejection certain
marks the proposal executed AND execute-ready even though
`pass = 0 < vote_quorum = 3`, contradicting the claim that
execute-ready is set exactly when `pass ≥ vote_quorum`. -/
theorem c4_multisig_decision_counterexample :
    castMultisigVote true 10 20 1 { msSquadEx with vote_quorum := 3 } msPropOpen 50 [] 1
      = Except.ok (msPropRejected, [(20, 1)])
    ∧ msPropRejected.execute_ready = true
    ∧ msPropRejected.votes.getD 0 0 < 3 := by
  decide

/-- C4 amended: after every successful multisig vote, with pass/fail the
updated first two slots and possible = member count − (pass + fail):
the proposal is marked terminal (executed) exactly when
`vote_quorum > possible + pass`; `execute_ready` is set exactly when it
was already set, or that rejection condition holds (rejection sets it
too), or `pass ≥ vote_quorum`; and whenever `execute_ready` ends up
set, `threshold_at_execute` is assigned the live `vote_quorum`
(otherwise it is unchanged). -/
theorem c4_multisig_decision_amended (squadKey proposalKey voter : ℕ) (squad : Squad)
    (p : Proposal) (now : ℤ) (receipts : ReceiptLedger) (vote : ℕ)
    (p' : Proposal) (r' : ReceiptLedger)
    (h : castMultisigVote true squadKey proposalKey voter squad p now receipts vote
      = Except.ok (p', r')) :
    p'.executed = decide (squad.vote_quorum >
      (squad.members.length - (p'.votes.getD 0 0 + p'.votes.getD 1 0)) + p'.votes.getD 0 0)
    ∧ p'.execute_ready = (p.execute_ready
        || decide (squad.vote_quorum >
            (squad.members.length - (p'.votes.getD 0 0 + p'.votes.getD 1 0))
              + p'.votes.getD 0 0)
        || decide (p'.votes.getD 0 0 ≥ squad.vote_quorum))
    ∧ p'.threshold_at_execute
        = (if p'.execute_ready = true then squad.vote_quorum else p.threshold_at_execute) := by
  obtain ⟨hchk, happ, hrec⟩ := castMultisigVote_ok_inv h
  obtain ⟨hex, hdup⟩ := castMsVoteCheck_none_facts hchk
  obtain ⟨hv, hle, hexec, hready, hthr⟩ := castMsVoteApply_char happ
  refine ⟨?_, hready, hthr⟩
  rw [hexec, hex]
  simp

/-- C4 witness: the amended decision rule at the concrete rejected
multisig vote of the counterexample. -/
theorem c4_multisig_decision_witness :
    msPropRejected.executed = decide (({ msSquadEx with vote_quorum := 3 } : Squad).vote_quorum >
      (({ msSquadEx with vote_quorum := 3 } : Squad).members.length
        - (msPropRejected.votes.getD 0 0 + msPropRejected.votes.getD 1 0))
        + msPropRejected.votes.getD 0 0)
    ∧ msPropRejected.execute_ready = (msPropOpen.execute_ready
        || decide (({ msSquadEx with vote_quorum := 3 } : Squad).vote_quorum >
            (({ msSquadEx with vote_quorum := 3 } : Squad).members.length
              - (msPropRejected.votes.getD 0 0 + msPropRejected.votes.getD 1 0))
              + msPropRejected.votes.getD 0 0)
        || decide (msPropRejected.votes.getD 0 0
              ≥ ({ msSquadEx with vote_quorum := 3 } : Squad).vote_quorum))
    ∧ msPropRejected.threshold_at_execute
        = (if msPropRejected.execute_ready = true
            then ({ msSquadEx with vote_quorum := 3 } : Squad).vote_quorum
            else msPropOpen.threshold_at_execute) :=
  c4_multisig_decision_amended 10 20 1 { msSquadEx with vote_quorum := 3 } msPropOpen
    50 [] 1 msPropRejected [(20, 1)] (by decide)

/-- C5: No double voting: in either allocation mode, when every check up
to the receipt-existence check passes but a receipt for
(proposal, voter) already exists, the cast fails with the state-conflict
error `AccountAlreadyInitialized` (the transaction aborts, leaving
tally, has_voted and flags unchanged); and every successful cast appends
exactly the one new receipt key, which was not present before, so a
duplicate-free ledger stays duplicate-free: at most one receipt ever
exists per (proposal, voter). -/
theorem c5_no_double_voting :
    (∀ (squadKey mintKey proposalKey voter : ℕ) (squad : Squad) (p : Proposal)
      (weight supply : ℕ) (now : ℤ) (receipts : ReceiptLedger) (vote : ℕ),
      p.squad_address = squadKey →
      squad.allocation_type = teamCoordination →
      ¬ (¬ p.execute_ready ∧ p.proposal_index ≤ squad.member_lock_index) →
      mintKey = squad.mint_address →
      ¬ p.close_timestamp < now →
      ¬ p.start_timestamp > now →
      p.executed = false →
      memberExists squad voter = true →
      (proposalKey, voter) ∈ receipts →
      castVote true squadKey mintKey proposalKey voter squad p weight supply now receipts vote
        = Except.error ProgErr.AccountAlreadyInitialized)
    ∧ (∀ (squadKey proposalKey voter : ℕ) (squad : Squad) (p : Proposal) (now : ℤ)
      (receipts : ReceiptLedger) (vote : ℕ),
      p.squad_address = squadKey →
      ¬ p.close_timestamp < now →
      ¬ p.start_timestamp > now →
      p.executed = false →
      squad.allocation_type = multisigAlloc →
      memberExists squad voter = true →
      (proposalKey, voter) ∈ receipts →
      castMultisigVote true squadKey proposalKey voter squad p now receipts vote
        = Except.error ProgErr.AccountAlreadyInitialized)
    ∧ (∀ (squadKey mintKey proposalKey voter : ℕ) (squad : Squad) (p : Proposal)
      (weight supply : ℕ) (now : ℤ) (receipts : ReceiptLedger) (vote : ℕ)
      (p' : Proposal) (r' : ReceiptLedger),
      castVote true squadKey mintKey proposalKey voter squad p weight supply now receipts vote
        = Except.ok (p', r') →
      r' = receipts ++ [(proposalKey, voter)] ∧ (proposalKey, voter) ∉ receipts
        ∧ (receipts.Nodup → r'.Nodup))
    ∧ (∀ (squadKey proposalKey voter : ℕ) (squad : Squad) (p : Proposal) (now : ℤ)
      (receipts : ReceiptLedger) (vote : ℕ) (p' : Proposal) (r' : ReceiptLedger),
      castMultisigVote true squadKey proposalKey voter squad p now receipts vote
        = Except.ok (p', r') →
      r' = receipts ++ [(proposalKey, voter)] ∧ (proposalKey, voter) ∉ receipts
        ∧ (receipts.Nodup → r'.Nodup)) := by
  refine ⟨?_, ?_, ?_, ?_⟩
  · intro squadKey mintKey proposalKey voter squad p weight supply now receipts vote
      hsq halloc hfence hmint hclose hstart hexec hmem hdup
    apply castVote_error_of_check (by simp [hsq])
    unfold castVoteCheck
    rw [if_neg (by simp [halloc]), if_neg hfence, if_neg (by simp [hmint]),
      if_neg hclose, if_neg hstart, if_neg (by simp [hexec]), if_neg (by simp [hmem]),
      if_pos hdup]
  · intro squadKey proposalKey voter squad p now receipts vote
      hsq hclose hstart hexec halloc hmem hdup
    apply castMsVote_error_of_check (by simp [hsq])
    unfold castMsVoteCheck
    rw [if_neg hclose, if_neg hstart, if_neg (by simp [hexec]), if_neg (by simp [halloc]),
      if_neg (by simp [hmem]), if_pos hdup]
  · intro squadKey mintKey proposalKey voter squad p weight supply now receipts vote
      p' r' h
    obtain ⟨hchk, happ, hrec⟩ := castVote_ok_inv h
    obtain ⟨hex, hdup⟩ := castVoteCheck_none_facts hchk
    subst hrec
    refine ⟨rfl, hdup, fun hnd => ?_⟩
    rw [List.nodup_append]
    exact ⟨hnd, List.nodup_singleton _, by simpa using hdup⟩
  · intro squadKey proposalKey voter squad p now receipts vote p' r' h
    obtain ⟨hchk, happ, hrec⟩ := castMultisigVote_ok_inv h
    obtain ⟨hex, hdup⟩ := castMsVoteCheck_none_facts hchk
    subst hrec
    refine ⟨rfl, hdup, fun hnd => ?_⟩
    rw [List.nodup_append]
    exact ⟨hnd, List.nodup_singleton _, by simpa using hdup⟩

/-- C5 witness: the duplicate-rejection and single-append statements at
concrete votes in both allocation modes. -/
theorem c5_no_double_voting_witness :
    castVote true 10 0 20 1 tcSquadEx tcPropText 5 100 50 [(20, 1)] 0
      = Except.error ProgErr.AccountAlreadyInitialized
    ∧ castMultisigVote true 10 20 1 msSquadEx msPropOpen 50 [(20, 1)] 1
      = Except.error ProgErr.AccountAlreadyInitialized
    ∧ ([(20, 1)] = ([] : ReceiptLedger) ++ [(20, 1)] ∧ (20, 1) ∉ ([] : ReceiptLedger)
        ∧ (([] : ReceiptLedger).Nodup → [(20, 1)].Nodup))
    ∧ ([(20, 1)] = ([] : ReceiptLedger) ++ [(20, 1)] ∧ (20, 1) ∉ ([] : ReceiptLedger)
        ∧ (([] : ReceiptLedger).Nodup → [(20, 1)].Nodup)) :=
  ⟨c5_no_double_voting.1 10 0 20 1 tcSquadEx tcPropText 5 100 50 [(20, 1)] 0
      (by decide) (by decide) (by decide) (by decide) (by decide) (by decide)
      (by decide) (by decide) (by decide),
   c5_no_double_voting.2.1 10 20 1 msSquadEx msPropOpen 50 [(20, 1)] 1
      (by decide) (by decide) (by decide) (by decide) (by decide) (by decide) (by decide),
   c5_no_double_voting.2.2.1 10 0 20 1 tcSquadEx tcPropText 5 100 50 [] 0
      tcPropTextVoted [(20, 1)] (by decide),
   c5_no_double_voting.2.2.2 10 20 1 msSquadEx msPropOpen 50 [] 1
      msPropVoted [(20, 1)] (by decide)⟩

/-- C6: Binary rejection is terminal: a successful TeamCoordination vote
on a binary (non-Text) proposal whose updated tally satisfies
`reject > pass + (supply - sum)` leaves the proposal marked executed;
and once a proposal is marked executed, every run of the execution
dispatcher and every further vote returns an error (so the dispatch
effect never runs for a proposal rejected this way). -/
theorem c6_binary_rejection_terminal :
    (∀ (squadKey mintKey proposalKey voter : ℕ) (squad : Squad) (p : Proposal)
      (weight supply : ℕ) (now : ℤ) (receipts : ReceiptLedger) (vote : ℕ)
      (p' : Proposal) (r' : ReceiptLedger),
      castVote true squadKey mintKey proposalKey voter squad p weight supply now receipts vote
        = Except.ok (p', r') →
      ¬ p.proposal_type = 0 →
      p'.votes.getD 1 0 > p'.votes.getD 0 0 + (supply - p'.votes.sum) →
      p'.executed = true)
    ∧ (∀ (isSigner : Bool) (squadKey executioner sourceKey destKey : ℕ) (squad : Squad)
      (p : Proposal) (supply mea : ℕ) (now : ℤ),
      p.executed = true →
      (executeProposal isSigner squadKey executioner sourceKey destKey squad p supply
        mea now).isOk = false)
    ∧ (∀ (isSigner : Bool) (squadKey mintKey proposalKey voter : ℕ) (squad : Squad)
      (p : Proposal) (weight supply : ℕ) (now : ℤ) (receipts : ReceiptLedger) (vote : ℕ),
      p.executed = true →
      (castVote isSigner squadKey mintKey proposalKey voter squad p weight supply now
        receipts vote).isOk = false) := by
  refine ⟨?_, ?_, ?_⟩
  · intro squadKey mintKey proposalKey voter squad p weight supply now receipts vote
      p' r' h ht hrej
    obtain ⟨hchk, happ, _⟩ := castVote_ok_inv h
    obtain ⟨hex, _⟩ := castVoteCheck_none_facts hchk
    obtain ⟨_, _, hexec⟩ := castVoteApply_binary happ ht
    rw [hexec, hex, Bool.false_or, decide_eq_true_eq]
    exact hrej
  · intro isSigner squadKey executioner sourceKey destKey squad p supply mea now h
    exact executeProposal_executed_notOk h
  · intro isSigner squadKey mintKey proposalKey voter squad p weight supply now
      receipts vote h
    exact castVote_executed_notOk h

/-- C6 witness: a concrete certain-rejection vote marks the proposal
executed, and dispatcher runs and further votes on it fail. -/
theorem c6_binary_rejection_witness :
    tcPropBinRejected.executed = true
    ∧ (executeProposal true 10 1 0 0 tcSquadEx tcPropBinRejected 100 0 99).isOk = false
    ∧ (castVote true 10 0 20 2 tcSquadEx tcPropBinRejected 5 100 50 [] 0).isOk = false :=
  ⟨c6_binary_rejection_terminal.1 10 0 20 1 { tcSquadEx with vote_quorum := 90 }
      tcPropBinary 60 100 50 [] 1 tcPropBinRejected [(20, 1)]
      (by norm_num [castVote, getProposalChecked, castVoteCheck, castVoteApply,
        tcPossibleVotesLeft, tipDecided, mostIndex, secondMostIndex, step1, step2, pct,
        memberExists, tcSquadEx, tcPropBinary, tcPropText, tcPropBinRejected,
        freshProposal, teamCoordination, List.enum, List.enumFrom])
      (by decide) (by decide),
   c6_binary_rejection_terminal.2.1 true 10 1 0 0 tcSquadEx tcPropBinRejected 100 0 99
      (by decide),
   c6_binary_rejection_terminal.2.2 true 10 0 20 2 tcSquadEx tcPropBinRejected 5 100 50
      [] 0 (by decide)⟩

/-- C7: Proposal-creation parameter bounds (code bug): the
TeamCoordination Quorum branch checks `amount > 0 || amount <= 100`,
a disjunction that every u64 satisfies, so out-of-range quorum amounts
101 and 0 are both ACCEPTED, contradicting the documented percent bound
in [1, 100] (which the sibling Support branch does enforce); and the
Multisig Quorum branch compares `members.len() as u8 >= amount as u8`
after truncating casts, so amount 259 is accepted by a 3-member squad
(259 mod 256 = 3 <= 3) although 259 exceeds the member count. -/
theorem c7_create_bounds_code_bug :
    (createProposal true true 10 1 tcSquadEx 2 2 0 1000 101 0 0 0 0 0).isOk = true
    ∧ (createProposal true true 10 1 tcSquadEx 2 2 0 1000 0 0 0 0 0 0).isOk = true
    ∧ createProposal true true 10 1 tcSquadEx 1 2 0 1000 101 0 0 0 0 0
      = Except.error ProgErr.InvalidArgument
    ∧ (createProposal true true 10 1 msSquadEx 2 2 0 1000 259 0 0 0 0 0).isOk = true
    ∧ msSquadEx.members.length = 3 := by
  decide

/-- C8: AddMember execution effect (code bug): executing the approved
AddMember proposal mints `execution_amount` (70) equity units to the new
member (9) and inserts the member into the roster, but leaves
`member_lock_index` at its old value 2 instead of setting it to
`squad.proposal_nonce` (5), so in-flight proposals are NOT fenced -
unlike the RemoveMember and MintMemberToken branches, which do set the
lock on a membership/equity change. -/
theorem c8_add_member_lock_code_bug :
    (executeProposal true 10 1 10 9 tcSquadEx tcPropAdd 3 0 99).map
      (fun r => (r.1.member_lock_index, r.1.proposal_nonce, memberExists r.1 9,
        r.2.1.executed, r.2.2))
    = Except.ok (2, 5, true, true, TokenEffect.mintTo 9 70)
    ∧ tcSquadEx.proposal_nonce = 5 ∧ tcSquadEx.member_lock_index = 2 := by
  refine ⟨?_, rfl, rfl⟩
  norm_num [executeProposal, getProposalChecked, execTCCheck, execTCDispatch,
    tcExecutePercents, pct, memberExists, addMember, freshProposal, tcSquadEx,
    tcPropAdd, teamCoordination, Except.map]

/-- C9: Squad-proposal binding: all four vote/execute operations load
the proposal through the common `get_proposal` accessor, so for any
initialized proposal whose stored `squad_address` differs from the
supplied squad account key, each operation fails with
`InvalidAccountData` before touching any state. -/
theorem c9_squad_binding :
    (∀ (squadKey mintKey proposalKey voter : ℕ) (squad : Squad) (p : Proposal)
      (weight supply : ℕ) (now : ℤ) (receipts : ReceiptLedger) (vote : ℕ),
      p.is_initialized = true → p.squad_address ≠ squadKey →
      castVote true squadKey mintKey proposalKey voter squad p weight supply now receipts vote
        = Except.error ProgErr.InvalidAccountData)
    ∧ (∀ (squadKey proposalKey voter : ℕ) (squad : Squad) (p : Proposal) (now : ℤ)
      (receipts : ReceiptLedger) (vote : ℕ),
      p.is_initialized = true → p.squad_address ≠ squadKey →
      castMultisigVote true squadKey proposalKey voter squad p now receipts vote
        = Except.error ProgErr.InvalidAccountData)
    ∧ (∀ (squadKey executioner sourceKey destKey : ℕ) (squad : Squad) (p : Proposal)
      (supply mea : ℕ) (now : ℤ),
      p.is_initialized = true → p.squad_address ≠ squadKey →
      executeProposal true squadKey executioner sourceKey destKey squad p supply mea now
        = Except.error ProgErr.InvalidAccountData)
    ∧ (∀ (squadKey executioner sourceKey destKey : ℕ) (squad : Squad) (p : Proposal)
      (now : ℤ),
      p.is_initialized = true → p.squad_address ≠ squadKey →
      executeMultisigProposal true squadKey executioner sourceKey destKey squad p now
        = Except.error ProgErr.InvalidAccountData) := by
  refine ⟨?_, ?_, ?_, ?_⟩
  · intro squadKey mintKey proposalKey voter squad p weight supply now receipts vote
      hinit hne
    have hacc : getProposalChecked squadKey p = Except.error ProgErr.InvalidAccountData := by
      unfold getProposalChecked
      rw [if_pos ⟨hinit, hne⟩]
    unfold castVote
    rw [hacc]
    simp
  · intro squadKey proposalKey voter squad p now receipts vote hinit hne
    have hacc : getProposalChecked squadKey p = Except.error ProgErr.InvalidAccountData := by
      unfold getProposalChecked
      rw [if_pos ⟨hinit, hne⟩]
    unfold castMultisigVote
    rw [hacc]
    simp
  · intro squadKey executioner sourceKey destKey squad p supply mea now hinit hne
    have hacc : getProposalChecked squadKey p = Except.error ProgErr.InvalidAccountData := by
      unfold getProposalChecked
      rw [if_pos ⟨hinit, hne⟩]
    unfold executeProposal
    rw [hacc]
    simp
  · intro squadKey executioner sourceKey destKey squad p now hinit hne
    have hacc : getProposalChecked squadKey p = Except.error ProgErr.InvalidAccountData := by
      unfold getProposalChecked
      rw [if_pos ⟨hinit, hne⟩]
    unfold executeMultisigProposal
    rw [hacc]
    simp

/-- C9 witness: all four operations reject the concrete proposal stored
for squad 11 when supplied with squad account 10. -/
theorem c9_squad_binding_witness :
    castVote true 10 0 20 1 tcSquadEx propMismatch 5 100 50 [] 0
      = Except.error ProgErr.InvalidAccountData
    ∧ castMultisigVote true 10 20 1 msSquadEx propMismatch 50 [] 1
      = Except.error ProgErr.InvalidAccountData
    ∧ executeProposal true 10 1 0 0 tcSquadEx propMismatch 2 0 99
      = Except.error ProgErr.InvalidAccountData
    ∧ executeMultisigProposal true 10 1 0 0 msSquadEx propMismatch 99
      = Except.error ProgErr.InvalidAccountData :=
  ⟨c9_squad_binding.1 10 0 20 1 tcSquadEx propMismatch 5 100 50 [] 0 (by decide) (by decide),
   c9_squad_binding.2.1 10 20 1 msSquadEx propMismatch 50 [] 1 (by decide) (by decide),
   c9_squad_binding.2.2.1 10 1 0 0 tcSquadEx propMismatch 2 0 99 (by decide) (by decide),
   c9_squad_binding.2.2.2 10 1 0 0 msSquadEx propMismatch 99 (by decide) (by decide)⟩

/-- C10: Tally-subtraction safety: when the recorded multisig votes come
from distinct members (a voter set contained in the member set, with
pass + fail its size), the unchecked `members.len() - (pass + fail)`
never underflows and equals the number of members who have not voted;
and the TeamCoordination `supply - sum(votes)` never underflows while
the summed tally stays within the mint supply. -/
theorem c10_tally_subtraction_safety :
    (∀ (members voted : Finset ℕ) (pass fail : ℕ),
      voted ⊆ members → pass + fail = voted.card →
      msPossibleVotesLeft members.card pass fail = some ((members \ voted).card))
    ∧ (∀ supply total : ℕ, total ≤ supply →
      tcPossibleVotesLeft supply total = some (supply - total)) := by
  constructor
  · intro members voted pass fail hsub hcard
    have hle : pass + fail ≤ members.card := hcard ▸ Finset.card_le_card hsub
    unfold msPossibleVotesLeft
    rw [if_pos hle, Finset.card_sdiff hsub, hcard]
  · intro supply total h
    unfold tcPossibleVotesLeft
    rw [if_pos h]

/-- C10 witness: the subtraction facts at a concrete three-member squad
with two distinct voters, and at supply 100 with 40 votes cast. -/
theorem c10_tally_subtraction_witness :
    msPossibleVotesLeft ({1, 2, 3} : Finset ℕ).card 1 1
      = some ((({1, 2, 3} : Finset ℕ) \ ({1, 2} : Finset ℕ)).card)
    ∧ tcPossibleVotesLeft 100 40 = some (100 - 40) :=
  ⟨c10_tally_subtraction_safety.1 {1, 2, 3} {1, 2} 1 1 (by decide) (by decide),
   c10_tally_subtraction_safety.2 100 40 (by decide)⟩

end Squads
